import Mathlib

/-!
Shallow embedding of the winget publishing plugin (Go sources: `hash.go`,
`plugin.go`, `github.go`, and the manifest generator) together with proofs
about the embedded operations.

Modelling conventions:
* Go byte slices are `List Nat` with every element `< 256`.
* Go `string` is Lean `String`; operations that the Go standard library
  performs byte-wise are modelled character-wise (all constants involved in
  the verified properties are ASCII, where the two notions agree).
* Fallible Go functions returning `(T, error)` become `Except String T`;
  a Go function that can also panic (index out of range) returns `GoResult`.
* Network interaction is made explicit: every embedded operation that
  performs HTTP traffic is parametrised by an oracle describing the remote
  responses and additionally returns the list of requests it issued, so
  "no network activity" is the statement that this list is empty.
-/

/-- Result of a Go function call: a value, a returned `error`, or a runtime
panic (e.g. an out-of-range slice index). -/
inductive GoResult (α : Type) where
  | ok (a : α)
  | err (msg : String)
  | panics
deriving DecidableEq, Repr

/-- True exactly on the `err` constructor. -/
def GoResult.isErr {α : Type} : GoResult α → Bool
  | .err _ => true
  | _ => false

/-- True exactly on the `ok` constructor. -/
def GoResult.isOk {α : Type} : GoResult α → Bool
  | .ok _ => true
  | _ => false

/-- True exactly on the `error` constructor of `Except`. -/
def Except.isErrB {ε α : Type} : Except ε α → Bool
  | .error _ => true
  | _ => false

namespace SHA256

/-! The SHA-256 digest, embedded from the semantics of Go's `crypto/sha256`
(`sha256.Sum256` / the streaming writer used in `hash.go`; both compute the
FIPS 180-4 function of the input bytes). Words are `Nat` reduced mod 2^32. -/

def w32 : Nat := 4294967296

def add32 (a b : Nat) : Nat := (a + b) % w32

def rotr (n x : Nat) : Nat := ((x >>> n) ||| (x <<< (32 - n))) % w32

def shr (n x : Nat) : Nat := x >>> n

def bnot32 (x : Nat) : Nat := Nat.xor x (w32 - 1)

def ch (x y z : Nat) : Nat := Nat.xor (Nat.land x y) (Nat.land (bnot32 x) z)

def maj (x y z : Nat) : Nat :=
  Nat.xor (Nat.xor (Nat.land x y) (Nat.land x z)) (Nat.land y z)

def bigS0 (x : Nat) : Nat := Nat.xor (Nat.xor (rotr 2 x) (rotr 13 x)) (rotr 22 x)

def bigS1 (x : Nat) : Nat := Nat.xor (Nat.xor (rotr 6 x) (rotr 11 x)) (rotr 25 x)

def smallS0 (x : Nat) : Nat := Nat.xor (Nat.xor (rotr 7 x) (rotr 18 x)) (shr 3 x)

def smallS1 (x : Nat) : Nat := Nat.xor (Nat.xor (rotr 17 x) (rotr 19 x)) (shr 10 x)

def K : List Nat :=
  [1116352408, 1899447441, 3049323471, 3921009573, 961987163, 1508970993,
   2453635748, 2870763221, 3624381080, 310598401, 607225278, 1426881987,
   1925078388, 2162078206, 2614888103, 3248222580, 3835390401, 4022224774,
   264347078, 604807628, 770255983, 1249150122, 1555081692, 1996064986,
   2554220882, 2821834349, 2952996808, 3210313671, 3336571891, 3584528711,
   113926993, 338241895, 666307205, 773529912, 1294757372, 1396182291,
   1695183700, 1986661051, 2177026350, 2456956037, 2730485921, 2820302411,
   3259730800, 3345764771, 3516065817, 3600352804, 4094571909, 275423344,
   430227734, 506948616, 659060556, 883997877, 958139571, 1322822218,
   1537002063, 1747873779, 1955562222, 2024104815, 2227730452, 2361852424,
   2428436474, 2756734187, 3204031479, 3329325298]

def H0 : List Nat :=
  [1779033703, 3144134277, 1013904242, 2773480762,
   1359893119, 2600822924, 528734635, 1541459225]

/-- Big-endian 8-byte encoding of the 64-bit bit length. -/
def toBE64 (n : Nat) : List Nat :=
  [(n >>> 56) % 256, (n >>> 48) % 256, (n >>> 40) % 256, (n >>> 32) % 256,
   (n >>> 24) % 256, (n >>> 16) % 256, (n >>> 8) % 256, n % 256]

/-- Big-endian 4-byte encoding of a 32-bit word. -/
def toBE32 (w : Nat) : List Nat :=
  [(w >>> 24) % 256, (w >>> 16) % 256, (w >>> 8) % 256, w % 256]

/-- Padding: append `0x80`, zero bytes up to 56 mod 64, then the bit length. -/
def pad (msg : List Nat) : List Nat :=
  let L := msg.length
  let zeros := (119 - L % 64) % 64
  msg ++ 128 :: List.replicate zeros 0 ++ toBE64 (L * 8)

/-- Split a byte list into 64-byte blocks (the fuel bounds the recursion and
is instantiated large enough to be irrelevant). -/
def toBlocks : Nat → List Nat → List (List Nat)
  | 0, _ => []
  | _, [] => []
  | fuel + 1, l => l.take 64 :: toBlocks fuel (l.drop 64)

/-- Collect consecutive groups of four big-endian bytes into 32-bit words. -/
def wordsOf : List Nat → List Nat
  | b0 :: b1 :: b2 :: b3 :: rest => (((b0 * 256 + b1) * 256 + b2) * 256 + b3) :: wordsOf rest
  | _ => []

/-- Message-schedule extension; `rw` is the reversed word list (head = newest). -/
def extendW : Nat → List Nat → List Nat
  | 0, rw => rw.reverse
  | n + 1, rw =>
    let nw := add32 (add32 (smallS1 (rw.getD 1 0)) (rw.getD 6 0))
                    (add32 (smallS0 (rw.getD 14 0)) (rw.getD 15 0))
    extendW n (nw :: rw)

def schedule (block : List Nat) : List Nat :=
  extendW 48 (wordsOf block).reverse

/-- One compression round; the state is the 8-word list `[a,b,c,d,e,f,g,h]`. -/
def round (st : List Nat) (kw : Nat × Nat) : List Nat :=
  match st with
  | [a, b, c, d, e, f, g, h] =>
    let t1 := add32 (add32 (add32 h (bigS1 e)) (add32 (ch e f g) kw.1)) kw.2
    let t2 := add32 (bigS0 a) (maj a b c)
    [add32 t1 t2, a, b, c, add32 d t1, e, f, g]
  | other => other

def compress (st : List Nat) (block : List Nat) : List Nat :=
  let out := (List.zip K (schedule block)).foldl round st
  (List.zip st out).map (fun p => add32 p.1 p.2)

/-- The SHA-256 digest (32 bytes) of a byte list. -/
def sha256Bytes (msg : List Nat) : List Nat :=
  let padded := pad msg
  let final := (toBlocks (padded.length + 1) padded).foldl compress H0
  final.flatMap toBE32

/-- Uppercase hexadecimal digit, as produced by `hex.EncodeToString` followed
by `strings.ToUpper` in the Go source. -/
def hexDigitUpper (n : Nat) : Char :=
  if n < 10 then Char.ofNat (48 + n) else Char.ofNat (55 + n)

/-- Uppercase hexadecimal rendering of a byte list. -/
def bytesToHexUpper (bs : List Nat) : String :=
  String.mk (bs.flatMap (fun b => [hexDigitUpper (b / 16), hexDigitUpper (b % 16)]))

end SHA256

/-- Embeds `CalculateHashFromBytes` (`hash.go`): the uppercase hex encoding of
the SHA-256 digest of the input bytes. -/
def CalculateHashFromBytes (data : List Nat) : String :=
  SHA256.bytesToHexUpper (SHA256.sha256Bytes data)

/-! ### HTTP download model (`CalculateInstallerHash`, `hash.go`)

The remote side is an oracle mapping a URL to what one GET request to that
URL observes: a redirect (3xx response with a Location), a final response
with status and body bytes, or a transport failure. -/

/-- Observable outcome of issuing one GET request to a URL. -/
inductive HttpStep where
  | redirect (location : String)
  | final (status : Nat) (body : List Nat)
  | failConn (msg : String)
deriving DecidableEq, Repr

/-- Embeds the redirect-following loop of Go's `http.Client` with the
`CheckRedirect` hook from `hash.go` (`if len(via) >= 10 { error }`).
`via` counts the requests already issued when a redirect response is being
considered (Go's `via` list length); `fuel` only bounds the recursion and is
instantiated so that it can never run out before the `via` check fires. -/
def clientFollowAux (net : String → HttpStep) : Nat → Nat → String → Except String (Nat × List Nat)
  | 0, _, url =>
    match net url with
    | .failConn msg => .error msg
    | .final s b => .ok (s, b)
    | .redirect _ => .error "too many redirects"
  | fuel + 1, via, url =>
    match net url with
    | .failConn msg => .error msg
    | .final s b => .ok (s, b)
    | .redirect loc =>
      if via ≥ 10 then .error "too many redirects"
      else clientFollowAux net fuel (via + 1) loc

/-- One `client.Do(req)` call of `hash.go`: the first request has one entry
in Go's `via` list by the time its redirect (if any) is checked. -/
def clientDo (net : String → HttpStep) (url : String) : Except String (Nat × List Nat) :=
  clientFollowAux net 10 1 url

/-- Embeds `CalculateInstallerHash` (`hash.go`): download with redirect cap,
require status `http.StatusOK` (200), hash the body. -/
def CalculateInstallerHash (net : String → HttpStep) (url : String) : Except String String :=
  match clientDo net url with
  | .error e => .error ("failed to download installer: " ++ e)
  | .ok (status, body) =>
    if status ≠ 200 then .error ("download failed with status " ++ Nat.repr status)
    else .ok (CalculateHashFromBytes body)

/-- Resolving to a final response after exactly `k` redirect hops. -/
inductive ReachesIn (net : String → HttpStep) : String → Nat → Nat → List Nat → Prop
  | done {url s b} : net url = .final s b → ReachesIn net url 0 s b
  | step {url loc k s b} : net url = .redirect loc → ReachesIn net loc k s b →
      ReachesIn net url (k + 1) s b

/-- A chain of at least `k` successive redirect hops starting at `url`. -/
inductive RedirectsAtLeast (net : String → HttpStep) : String → Nat → Prop
  | zero {url} : RedirectsAtLeast net url 0
  | succ {url loc k} : net url = .redirect loc → RedirectsAtLeast net loc k →
      RedirectsAtLeast net url (k + 1)

/-! ### String helpers (embedding the `strings` package operations used) -/

/-- Splitting off everything before the first occurrence of `sep`:
`none` when `sep` does not occur. -/
def splitOnceAt (sep : Char) : List Char → Option (List Char × List Char)
  | [] => none
  | c :: cs =>
    if c = sep then some ([], cs)
    else
      match splitOnceAt sep cs with
      | none => none
      | some (a, b) => some (c :: a, b)

/-- Embeds `strings.SplitN(s, ".", 2)`: one part when `s` has no `'.'`,
otherwise the segments before and after the first `'.'`. -/
def splitN2 (s : String) : List String :=
  match splitOnceAt '.' s.data with
  | none => [s]
  | some (a, b) => [String.mk a, String.mk b]

/-- Replace every non-overlapping occurrence of `pat` (left to right) by
`repl`, as `strings.ReplaceAll` does; the fuel is instantiated with the
length of the scanned list, which one step always shrinks. An empty pattern
is treated as matching nowhere (the Go callers never use one). -/
def replaceList (pat repl : List Char) : Nat → List Char → List Char
  | 0, l => l
  | _, [] => []
  | fuel + 1, c :: cs =>
    if pat ≠ [] ∧ pat.isPrefixOf (c :: cs) then
      repl ++ replaceList pat repl fuel (List.drop pat.length (c :: cs))
    else
      c :: replaceList pat repl fuel cs

/-- Embeds `strings.ReplaceAll(s, pat, repl)` for non-empty `pat`. -/
def strReplaceAll (s pat repl : String) : String :=
  String.mk (replaceList pat.data repl.data s.data.length s.data)

/-- Embeds `renderTemplate` (`plugin.go`) for a single-entry data map:
replaces every `{{.key}}` token by `value`. -/
def renderTemplate1 (tmpl key value : String) : String :=
  strReplaceAll tmpl ("\x7b\x7b." ++ key ++ "\x7d\x7d") value

/-! ### Configuration model (`plugin.go`) -/

/-- Embeds `InstallerConfig` (`plugin.go`); the `Switches` map is an
association list and the field `Typ` embeds the Go field `Type` (a Lean
keyword). -/
structure InstallerConfig where
  URL : String := ""
  Architecture : String := ""
  Typ : String := ""
  Switches : List (String × String) := []
  Scope : String := ""
  ProductCode : String := ""
deriving DecidableEq, Repr

/-- Embeds `MetadataConfig` (`plugin.go`). -/
structure MetadataConfig where
  Publisher : String := ""
  PublisherURL : String := ""
  PublisherSupportURL : String := ""
  Name : String := ""
  ShortDescription : String := ""
  License : String := ""
  LicenseURL : String := ""
  Copyright : String := ""
  PackageURL : String := ""
  Tags : List String := []
  Moniker : String := ""
  ReleaseNotesURL : String := ""
deriving DecidableEq, Repr

/-- Embeds `LocaleConfig` (`plugin.go`). -/
structure LocaleConfig where
  Locale : String := ""
  Description : String := ""
deriving DecidableEq, Repr

/-- Embeds `PRConfig` (`plugin.go`). -/
structure PRConfig where
  ForkOwner : String := ""
  BaseBranch : String := "master"
  Title : String := ""
  DeleteBranch : Bool := true
deriving DecidableEq, Repr

/-- Embeds `Config` (`plugin.go`). The field `ValidateFlag` embeds the Go
field `Validate` (renamed to keep the validation function's source name). -/
structure Config where
  PackageID : String := ""
  GitHubToken : String := ""
  Installers : List InstallerConfig := []
  Metadata : MetadataConfig := {}
  Locales : List LocaleConfig := []
  PullRequest : PRConfig := {}
  ValidateFlag : Bool := true
  TestInstall : Bool := false
  DryRun : Bool := false
deriving DecidableEq, Repr

/-! ### Manifest model (manifest generator source file) -/

/-- Embeds the constant `ManifestVersion`. -/
def ManifestVersion : String := "1.6.0"

/-- Embeds `VersionManifest`. -/
structure VersionManifest where
  PackageIdentifier : String
  PackageVersion : String
  DefaultLocale : String
  ManifestType : String
  ManifestVersion : String
deriving DecidableEq, Repr

/-- Embeds `Installer` (one installer entry of the installer manifest). -/
structure Installer where
  Architecture : String := ""
  InstallerType : String := ""
  InstallerURL : String := ""
  InstallerSha256 : String := ""
  Scope : String := ""
  InstallerSwitches : List (String × String) := []
  ProductCode : String := ""
deriving DecidableEq, Repr

/-- Embeds `InstallerManifest`. -/
structure InstallerManifest where
  PackageIdentifier : String
  PackageVersion : String
  Installers : List Installer
  ManifestType : String
  ManifestVersion : String
deriving DecidableEq, Repr

/-- Embeds `LocaleManifest`. -/
structure LocaleManifest where
  PackageIdentifier : String
  PackageVersion : String
  PackageLocale : String
  Publisher : String
  PublisherURL : String := ""
  PublisherSupportURL : String := ""
  PackageName : String
  License : String
  LicenseURL : String := ""
  Copyright : String := ""
  ShortDescription : String
  Description : String := ""
  Moniker : String := ""
  Tags : List String := []
  PackageURL : String := ""
  ReleaseNotesURL : String := ""
  ManifestType : String
  ManifestVersion : String
deriving DecidableEq, Repr

/-- Embeds `ManifestSet`. -/
structure ManifestSet where
  Version : VersionManifest
  Installer : InstallerManifest
  Locale : LocaleManifest
  Path : String
deriving DecidableEq, Repr

/-- Description of the first configured `en-US` locale, if any (the loop over
`cfg.Locales` in `GenerateManifests`). -/
def findEnUSDescription : List LocaleConfig → Option String
  | [] => none
  | l :: ls => if l.Locale = "en-US" then some l.Description else findEnUSDescription ls

/-- Embeds `GenerateManifests` (manifest generator source). The identifier is
split once at the first `'.'`; fewer than two parts is an error. Taking the
first letter of the publisher (`publisher[:1]`) panics in Go when the
publisher segment is empty, which the embedding makes explicit. The Go
byte-slice `publisher[:1]` and `strings.ToLower` are modelled character-wise
(they agree on ASCII publishers). -/
def GenerateManifests (cfg : Config) (version : String) (installers : List Installer) :
    GoResult ManifestSet :=
  match splitN2 cfg.PackageID with
  | [publisher, _rest] =>
    let versionManifest : VersionManifest :=
      { PackageIdentifier := cfg.PackageID
        PackageVersion := version
        DefaultLocale := "en-US"
        ManifestType := "version"
        ManifestVersion := ManifestVersion }
    let installerManifest : InstallerManifest :=
      { PackageIdentifier := cfg.PackageID
        PackageVersion := version
        Installers := installers
        ManifestType := "installer"
        ManifestVersion := ManifestVersion }
    let localeManifest : LocaleManifest :=
      { PackageIdentifier := cfg.PackageID
        PackageVersion := version
        PackageLocale := "en-US"
        Publisher := cfg.Metadata.Publisher
        PublisherURL := cfg.Metadata.PublisherURL
        PublisherSupportURL := cfg.Metadata.PublisherSupportURL
        PackageName := cfg.Metadata.Name
        License := cfg.Metadata.License
        LicenseURL := cfg.Metadata.LicenseURL
        Copyright := cfg.Metadata.Copyright
        ShortDescription := cfg.Metadata.ShortDescription
        Description := (findEnUSDescription cfg.Locales).getD ""
        Moniker := cfg.Metadata.Moniker
        Tags := cfg.Metadata.Tags
        PackageURL := cfg.Metadata.PackageURL
        ReleaseNotesURL := cfg.Metadata.ReleaseNotesURL
        ManifestType := "defaultLocale"
        ManifestVersion := ManifestVersion }
    match publisher.data with
    | [] => .panics
    | pc :: _ =>
      let firstLetter := String.mk [pc.toLower]
      let path := "manifests/" ++ firstLetter ++ "/" ++ cfg.PackageID ++ "/" ++ version
      .ok { Version := versionManifest
            Installer := installerManifest
            Locale := localeManifest
            Path := path }
  | _ => .err ("invalid package ID format: " ++ cfg.PackageID)

/-! ### Document serialization (manifest generator source)

Go's `yaml.Marshal` on these fixed struct shapes cannot fail (every field is
a string, a string list, a string map, or a nested struct of those), so the
error path of `toYAML`/`GetFiles` is dead and the embedding renders the
documents as total functions. The rendering itself abstracts the yaml.v3
wire format to a key-value listing honouring the `omitempty` tags; no
verified property inspects document text beyond the prepended header. -/

/-- One `Key: value` line of the rendered document. -/
def yamlField (k v : String) : String := k ++ ": " ++ v ++ "\n"

/-- One `Key: value` line, omitted when the value is empty (`omitempty`). -/
def yamlFieldOpt (k v : String) : String := if v = "" then "" else yamlField k v

/-- Rendered list of scalar values. -/
def yamlList (k : String) (vs : List String) : String :=
  if vs = [] then ""
  else k ++ ":\n" ++ String.join (vs.map (fun v => "  - " ++ v ++ "\n"))

/-- Rendered map of string pairs. -/
def yamlMap (k : String) (kvs : List (String × String)) : String :=
  if kvs = [] then ""
  else k ++ ":\n" ++ String.join (kvs.map (fun p => "  " ++ p.1 ++ ": " ++ p.2 ++ "\n"))

/-- Embeds `(*ManifestSet).VersionYAML`. -/
def ManifestSet.VersionYAML (m : ManifestSet) : String :=
  yamlField "PackageIdentifier" m.Version.PackageIdentifier ++
  yamlField "PackageVersion" m.Version.PackageVersion ++
  yamlField "DefaultLocale" m.Version.DefaultLocale ++
  yamlField "ManifestType" m.Version.ManifestType ++
  yamlField "ManifestVersion" m.Version.ManifestVersion

/-- Rendered single installer entry. -/
def installerEntryYAML (i : Installer) : String :=
  yamlField "Architecture" i.Architecture ++
  yamlField "InstallerType" i.InstallerType ++
  yamlField "InstallerUrl" i.InstallerURL ++
  yamlField "InstallerSha256" i.InstallerSha256 ++
  yamlFieldOpt "Scope" i.Scope ++
  yamlMap "InstallerSwitches" i.InstallerSwitches ++
  yamlFieldOpt "ProductCode" i.ProductCode

/-- Embeds `(*ManifestSet).InstallerYAML`. -/
def ManifestSet.InstallerYAML (m : ManifestSet) : String :=
  yamlField "PackageIdentifier" m.Installer.PackageIdentifier ++
  yamlField "PackageVersion" m.Installer.PackageVersion ++
  "Installers:\n" ++ String.join (m.Installer.Installers.map installerEntryYAML) ++
  yamlField "ManifestType" m.Installer.ManifestType ++
  yamlField "ManifestVersion" m.Installer.ManifestVersion

/-- Embeds `(*ManifestSet).LocaleYAML`. -/
def ManifestSet.LocaleYAML (m : ManifestSet) : String :=
  yamlField "PackageIdentifier" m.Locale.PackageIdentifier ++
  yamlField "PackageVersion" m.Locale.PackageVersion ++
  yamlField "PackageLocale" m.Locale.PackageLocale ++
  yamlField "Publisher" m.Locale.Publisher ++
  yamlFieldOpt "PublisherUrl" m.Locale.PublisherURL ++
  yamlFieldOpt "PublisherSupportUrl" m.Locale.PublisherSupportURL ++
  yamlField "PackageName" m.Locale.PackageName ++
  yamlField "License" m.Locale.License ++
  yamlFieldOpt "LicenseUrl" m.Locale.LicenseURL ++
  yamlFieldOpt "Copyright" m.Locale.Copyright ++
  yamlField "ShortDescription" m.Locale.ShortDescription ++
  yamlFieldOpt "Description" m.Locale.Description ++
  yamlFieldOpt "Moniker" m.Locale.Moniker ++
  yamlList "Tags" m.Locale.Tags ++
  yamlFieldOpt "PackageUrl" m.Locale.PackageURL ++
  yamlFieldOpt "ReleaseNotesUrl" m.Locale.ReleaseNotesURL ++
  yamlField "ManifestType" m.Locale.ManifestType ++
  yamlField "ManifestVersion" m.Locale.ManifestVersion

/-- The fixed two-line header comment (first two lines of the string built in
`addYAMLHeader`). -/
def yamlHeaderLines : String :=
  "# Created using Relicta\n# yaml-language-server: $schema=https://aka.ms/winget-manifest.version.1.6.0.schema.json"

/-- Embeds `addYAMLHeader`. -/
def addYAMLHeader (content : String) : String :=
  yamlHeaderLines ++ "\n\n" ++ content

/-- Embeds `(*ManifestSet).GetFiles`. The Go function fills a `map[string]
string` with three distinct keys; the embedding keeps the insertion order as
an association list. The serialization error path is dead (see above). -/
def ManifestSet.GetFiles (m : ManifestSet) : List (String × String) :=
  [ (m.Path ++ "/" ++ m.Version.PackageIdentifier ++ ".yaml",
     addYAMLHeader m.VersionYAML),
    (m.Path ++ "/" ++ m.Installer.PackageIdentifier ++ ".installer.yaml",
     addYAMLHeader m.InstallerYAML),
    (m.Path ++ "/" ++ m.Locale.PackageIdentifier ++ ".locale.en-US.yaml",
     addYAMLHeader m.LocaleYAML) ]

/-! ### Configuration validation (`plugin.go`) -/

/-- Embeds `isValidPackageID` (`plugin.go`). -/
def isValidPackageID (id : String) : Bool :=
  if id = "" then false
  else
    match splitN2 id with
    | [a, b] => a != "" && b != ""
    | _ => false

/-- Embeds `isValidArchitecture` (`plugin.go`). -/
def isValidArchitecture (arch : String) : Bool :=
  arch == "x86" || arch == "x64" || arch == "arm" || arch == "arm64"

/-- Per-installer validation errors with their running index
(`installers[i].url` / `installers[i].architecture`). -/
def installerErrorsAux : Nat → List InstallerConfig → List (String × String)
  | _, [] => []
  | i, ic :: rest =>
    (if ic.URL = "" then
       [("installers[" ++ Nat.repr i ++ "].url", "Installer URL is required")]
     else []) ++
    (if !isValidArchitecture ic.Architecture then
       [("installers[" ++ Nat.repr i ++ "].architecture",
         "Architecture must be x86, x64, arm, or arm64")]
     else []) ++
    installerErrorsAux (i + 1) rest

/-- Embeds the `Validate` method of the plugin (`plugin.go`) as the list of
`(field, message)` errors accumulated by the validation builder, in source
order. Go's `len` on a string counts UTF-8 bytes, hence `utf8ByteSize` in
the short-description length check. -/
def WinGetPlugin.Validate (cfg : Config) : List (String × String) :=
  (if !isValidPackageID cfg.PackageID then
     [("package_id", "Package ID must be in format Publisher.PackageName")]
   else []) ++
  (if cfg.GitHubToken = "" then [("github_token", "GitHub token is required")] else []) ++
  (if cfg.Installers.length = 0 then
     [("installers", "At least one installer is required")]
   else []) ++
  installerErrorsAux 0 cfg.Installers ++
  (if cfg.Metadata.Publisher = "" then [("metadata.publisher", "Publisher is required")] else []) ++
  (if cfg.Metadata.Name = "" then [("metadata.name", "Package name is required")] else []) ++
  (if cfg.Metadata.ShortDescription = "" then
     [("metadata.short_description", "Short description is required")]
   else if cfg.Metadata.ShortDescription.utf8ByteSize > 256 then
     [("metadata.short_description", "Short description must be <= 256 characters")]
   else []) ++
  (if cfg.Metadata.License = "" then [("metadata.license", "License is required")] else [])

/-! ### GitHub client model (`github.go`)

Each REST call's remote outcome is provided by an oracle (`GhWorld`): a
transport failure or a response. JSON decoding of the bodies the client
actually reads is abstracted: the relevant decoded field (`login`,
`object.sha`, `html_url`) is the response body itself. The embedded
operations additionally return the list of issued requests. -/

/-- Response to one GitHub API request. -/
structure GhResponse where
  status : Nat
  body : String
deriving DecidableEq, Repr

/-- Outcomes of the GitHub API requests one publish run can issue. -/
structure GhWorld where
  userResp : Except String GhResponse := .ok { status := 200, body := "" }
  probeResp : Except String GhResponse := .ok { status := 200, body := "" }
  createForkResp : Except String GhResponse := .ok { status := 202, body := "" }
  branchSHAResp : Except String GhResponse := .ok { status := 200, body := "" }
  createBranchResp : Except String GhResponse := .ok { status := 201, body := "" }
  putFileResp : String → Except String GhResponse := fun _ => .ok { status := 201, body := "" }
  createPRResp : Except String GhResponse := .ok { status := 201, body := "" }

/-- Requests observable on the network during one publish run. -/
inductive NetEvent where
  | download (url : String)
  | ghGetUser
  | ghProbeFork (owner : String)
  | ghCreateFork
  | sleepSeconds (n : Nat)
  | ghGetBranchSHA (branch : String)
  | ghCreateBranch (branch : String)
  | ghPutFile (path : String)
  | ghCreatePR
deriving DecidableEq, Repr

/-- Embeds `doRequest` (`github.go`): transport errors propagate, a status
`>= 400` is an API error carrying the status and body, and otherwise the
decoded payload (the body, under the decoding abstraction) is returned. -/
def doRequest (r : Except String GhResponse) : Except String String :=
  match r with
  | .error e => .error e
  | .ok resp =>
    if resp.status ≥ 400 then
      .error ("API error " ++ Nat.repr resp.status ++ ": " ++ resp.body)
    else .ok resp.body

/-- Embeds `getCurrentUser` (`github.go`). -/
def getCurrentUser (w : GhWorld) : Except String String := doRequest w.userResp

/-- Embeds `forkExists` (`github.go`): a raw request whose transport failure
propagates and whose status is compared with `http.StatusOK` (200). -/
def forkExists (w : GhWorld) : Except String Bool :=
  match w.probeResp with
  | .error e => .error e
  | .ok resp => .ok (resp.status = 200)

/-- Embeds `createFork` (`github.go`): accepts only `http.StatusAccepted`
(202) or `http.StatusOK` (200). -/
def createFork (w : GhWorld) : Except String Unit :=
  match w.createForkResp with
  | .error e => .error e
  | .ok resp =>
    if resp.status ≠ 202 ∧ resp.status ≠ 200 then
      .error ("failed to create fork: " ++ resp.body)
    else .ok ()

/-- Embeds `EnsureFork` (`github.go`), returning the resolved owner and the
issued requests. The `time.Sleep(5 * time.Second)` settling delay appears in
the trace as `sleepSeconds 5`. -/
def EnsureFork (w : GhWorld) (forkOwner : String) : Except String String × List NetEvent :=
  if forkOwner ≠ "" then (.ok forkOwner, [])
  else
    match getCurrentUser w with
    | .error e => (.error ("failed to get current user: " ++ e), [.ghGetUser])
    | .ok user =>
      match forkExists w with
      | .error e => (.error ("failed to check fork: " ++ e), [.ghGetUser, .ghProbeFork user])
      | .ok exists_ =>
        if exists_ then (.ok user, [.ghGetUser, .ghProbeFork user])
        else
          match createFork w with
          | .error e =>
            (.error ("failed to create fork: " ++ e),
             [.ghGetUser, .ghProbeFork user, .ghCreateFork])
          | .ok _ =>
            (.ok user,
             [.ghGetUser, .ghProbeFork user, .ghCreateFork, .sleepSeconds 5])

/-- Embeds `getBranchSHA` (`github.go`). -/
def getBranchSHA (w : GhWorld) : Except String String := doRequest w.branchSHAResp

/-- Embeds `createBranch` (`github.go`): expects `http.StatusCreated` (201). -/
def createBranch (w : GhWorld) : Except String Unit :=
  match w.createBranchResp with
  | .error e => .error e
  | .ok resp =>
    if resp.status ≠ 201 then .error ("failed to create branch: " ++ resp.body)
    else .ok ()

/-- Embeds the loop body of `commitFiles` (`github.go`): one `PUT` per file,
expecting status 200 or 201 (Go iterates its map in unspecified order; the
embedding follows the association list's order). -/
def commitFiles (w : GhWorld) : List (String × String) → Except String Unit × List NetEvent
  | [] => (.ok (), [])
  | (path, _) :: rest =>
    match w.putFileResp path with
    | .error e => (.error e, [.ghPutFile path])
    | .ok resp =>
      if resp.status ≠ 201 ∧ resp.status ≠ 200 then
        (.error ("failed to create file " ++ path ++ ": status " ++ Nat.repr resp.status),
         [.ghPutFile path])
      else
        match commitFiles w rest with
        | (r, evs) => (r, .ghPutFile path :: evs)

/-- Embeds `createPullRequest` (`github.go`): a `doRequest` whose decoded
payload is the PR's `html_url`. -/
def createPullRequest (w : GhWorld) : Except String String := doRequest w.createPRResp

/-- Embeds `CreatePR` (`github.go`): resolve the effective fork owner, read
the base branch tip, create `winget/<id with dots replaced>/<version>` in
the fork, commit the manifest files one by one, and open the pull request
with the rendered title. -/
def CreatePR (w : GhWorld) (forkOwner : String) (manifests : ManifestSet) (cfg : PRConfig) :
    Except String String × List NetEvent :=
  let resolved : Except String String × List NetEvent :=
    if forkOwner = "" then
      match getCurrentUser w with
      | .error e => (.error e, [.ghGetUser])
      | .ok user => (.ok user, [.ghGetUser])
    else (.ok forkOwner, [])
  match resolved with
  | (.error e, evs) => (.error e, evs)
  | (.ok _owner, evs) =>
    match getBranchSHA w with
    | .error e =>
      (.error ("failed to get base branch SHA: " ++ e), evs ++ [.ghGetBranchSHA cfg.BaseBranch])
    | .ok _sha =>
      let evs := evs ++ [.ghGetBranchSHA cfg.BaseBranch]
      let branchName := "winget/" ++
        strReplaceAll manifests.Version.PackageIdentifier "." "-" ++ "/" ++
        manifests.Version.PackageVersion
      match createBranch w with
      | .error e => (.error ("failed to create branch: " ++ e), evs ++ [.ghCreateBranch branchName])
      | .ok _ =>
        let evs := evs ++ [.ghCreateBranch branchName]
        let files := manifests.GetFiles
        match commitFiles w files with
        | (.error e, cevs) => (.error ("failed to commit files: " ++ e), evs ++ cevs)
        | (.ok _, cevs) =>
          let evs := evs ++ cevs
          let _prTitle :=
            renderTemplate1 (renderTemplate1 cfg.Title "PackageId"
              manifests.Version.PackageIdentifier) "Version" manifests.Version.PackageVersion
          match createPullRequest w with
          | .error e => (.error ("failed to create PR: " ++ e), evs ++ [.ghCreatePR])
          | .ok url => (.ok url, evs ++ [.ghCreatePR])

/-! ### Publish orchestration (`plugin.go`) -/

/-- Embeds `plugin.ExecuteResponse` (success flag and message; the fields the
orchestrator sets). -/
structure ExecuteResponse where
  Success : Bool
  Message : String
deriving DecidableEq, Repr

/-- The placeholder digest substituted for every installer in dry-run mode. -/
def dryRunHash : String :=
  "0000000000000000000000000000000000000000000000000000000000000000"

/-- The world one publish run interacts with: the installer download network
and the GitHub API. -/
structure World where
  net : String → HttpStep := fun _ => .final 200 []
  gh : GhWorld := {}

/-- Embeds the per-installer loop of `executePostPublish` (`plugin.go`):
render the URL template, hash (or substitute the placeholder when dry-run),
and build the `Installer` record; the first failure aborts with the
installer's index and error. -/
def buildInstallers (w : World) (version : String) (dryRun : Bool) :
    Nat → List InstallerConfig → Except (Nat × String) (List Installer) × List NetEvent
  | _, [] => (.ok [], [])
  | i, ic :: rest =>
    let url := renderTemplate1 ic.URL "Version" version
    let withHash (hash : String) (evs : List NetEvent) :
        Except (Nat × String) (List Installer) × List NetEvent :=
      let inst : Installer :=
        { Architecture := ic.Architecture
          InstallerType := ic.Typ
          InstallerURL := url
          InstallerSha256 := hash
          Scope := ic.Scope
          ProductCode := ic.ProductCode
          InstallerSwitches := ic.Switches }
      match buildInstallers w version dryRun (i + 1) rest with
      | (.ok l, evs2) => (.ok (inst :: l), evs ++ evs2)
      | (.error e, evs2) => (.error e, evs ++ evs2)
    if dryRun then withHash dryRunHash []
    else
      match CalculateInstallerHash w.net url with
      | .error e => (.error (i, e), [.download url])
      | .ok hash => withHash hash [.download url]

/-- Embeds `executePostPublish` (`plugin.go`). The response is a `GoResult`
because `GenerateManifests` can panic; in every non-panicking path the Go
method returns a response with a `nil` error. -/
def executePostPublish (w : World) (version : String) (cfg : Config) :
    GoResult ExecuteResponse × List NetEvent :=
  match buildInstallers w version cfg.DryRun 0 cfg.Installers with
  | (.error (i, e), evs) =>
    (.ok { Success := false
           Message := "Failed to calculate hash for installer " ++ Nat.repr i ++ ": " ++ e },
     evs)
  | (.ok installers, evs) =>
    match GenerateManifests cfg version installers with
    | .panics => (.panics, evs)
    | .err e => (.ok { Success := false, Message := "Failed to generate manifests: " ++ e }, evs)
    | .ok manifests =>
      if cfg.DryRun then
        (.ok { Success := true
               Message := "[DRY-RUN] Would create PR for " ++ cfg.PackageID ++
                 " version " ++ version },
         evs)
      else
        match EnsureFork w.gh cfg.PullRequest.ForkOwner with
        | (.error e, evs2) =>
          (.ok { Success := false, Message := "Failed to ensure fork: " ++ e }, evs ++ evs2)
        | (.ok forkOwner, evs2) =>
          match CreatePR w.gh forkOwner manifests cfg.PullRequest with
          | (.error e, evs3) =>
            (.ok { Success := false, Message := "Failed to create PR: " ++ e },
             evs ++ evs2 ++ evs3)
          | (.ok prURL, evs3) =>
            (.ok { Success := true
                   Message := "Created PR for " ++ cfg.PackageID ++ " version " ++ version ++
                     ": " ++ prURL },
             evs ++ evs2 ++ evs3)

/-- Embeds the constant `plugin.HookPostPublish` of the plugin SDK (the only
hook the plugin declares and handles). -/
def HookPostPublish : String := "post-publish"

/-- Embeds `Execute` (`plugin.go`): merge the request's dry-run flag into the
configuration, dispatch the post-publish hook, and answer every other hook
with a successful no-op response (and a `nil` error). -/
def WinGetPlugin.Execute (w : World) (hook : String) (reqDryRun : Bool) (version : String)
    (cfg : Config) : GoResult ExecuteResponse × List NetEvent :=
  let cfg := { cfg with DryRun := cfg.DryRun || reqDryRun }
  if hook = HookPostPublish then executePostPublish w version cfg
  else (.ok { Success := true, Message := "Hook " ++ hook ++ " not handled by winget plugin" }, [])


/-! ### Helper definitions for the verified properties -/

/-- Extract the `ok` payload of a `GoResult`, with a fallback. -/
def goOkD {α : Type} (r : GoResult α) (d : α) : α :=
  match r with
  | .ok a => a
  | _ => d

/-- Extract the `ok` payload of an `Except`, with a fallback. -/
def exOkD {ε α : Type} (r : Except ε α) (d : α) : α :=
  match r with
  | .ok a => a
  | _ => d

/-- The specification's notion (stated in its own words, for comparison with
the source behaviour): the identifier splits at the first `'.'` into exactly
two non-empty segments. -/
def specCanSplitTwoNonEmpty (s : String) : Bool :=
  match splitN2 s with
  | [a, b] => a != "" && b != ""
  | _ => false

/-- The lowercased first character of a string, as a one-character string. -/
def lowerFirstChar (s : String) : String :=
  String.mk [(s.data.headD 'a').toLower]

/-- The installer record the dry-run branch builds for one configured
installer (placeholder digest instead of a download). -/
def dryRunInstaller (version : String) (ic : InstallerConfig) : Installer :=
  { Architecture := ic.Architecture
    InstallerType := ic.Typ
    InstallerURL := renderTemplate1 ic.URL "Version" version
    InstallerSha256 := dryRunHash
    Scope := ic.Scope
    ProductCode := ic.ProductCode
    InstallerSwitches := ic.Switches }

/-- The `required` validation error for the short description. -/
def shortDescRequiredErr : String × String :=
  ("metadata.short_description", "Short description is required")

/-- The `too long` validation error for the short description. -/
def shortDescTooLongErr : String × String :=
  ("metadata.short_description", "Short description must be <= 256 characters")

/-- A placeholder `ManifestSet` used as the fallback of `goOkD`. -/
def emptyManifestSet : ManifestSet :=
  { Version := { PackageIdentifier := "", PackageVersion := "", DefaultLocale := ""
                 ManifestType := "", ManifestVersion := "" }
    Installer := { PackageIdentifier := "", PackageVersion := "", Installers := []
                   ManifestType := "", ManifestVersion := "" }
    Locale := { PackageIdentifier := "", PackageVersion := "", PackageLocale := ""
                Publisher := "", PackageName := "", License := "", ShortDescription := ""
                ManifestType := "", ManifestVersion := "" }
    Path := "" }

/-! ### Concrete inputs for witnesses and counterexamples -/

/-- A remote endpoint answering every URL with status 204 and an empty body. -/
def net204 : String → HttpStep := fun _ => .final 204 []

/-- A remote endpoint answering every URL with status 404. -/
def net404 : String → HttpStep := fun _ => .final 404 []

/-- A redirect chain of exactly ten hops (`u0` … `u9`) ending in a 200. -/
def net10 : String → HttpStep := fun u =>
  if u = "u0" then .redirect "u1" else
  if u = "u1" then .redirect "u2" else
  if u = "u2" then .redirect "u3" else
  if u = "u3" then .redirect "u4" else
  if u = "u4" then .redirect "u5" else
  if u = "u5" then .redirect "u6" else
  if u = "u6" then .redirect "u7" else
  if u = "u7" then .redirect "u8" else
  if u = "u8" then .redirect "u9" else
  if u = "u9" then .redirect "u10" else
  .final 200 [97]

/-- A single redirect (`a` → `b`) ending in a 200 with body `"abc"`. -/
def netOneHop : String → HttpStep := fun u =>
  if u = "a" then .redirect "b" else .final 200 [97, 98, 99]

/-- A configuration whose identifier has an empty segment after the first
separator. -/
def cfgEmptyRest : Config := { PackageID := "App." }

/-- A well-formed configuration for the `MyOrg.MyApp` scenario. -/
def cfgMyOrg : Config :=
  { PackageID := "MyOrg.MyApp"
    Metadata := { Publisher := "My Organization", Name := "My Application"
                  ShortDescription := "A useful application", License := "MIT" }
    Locales := [{ Locale := "en-US", Description := "A full description" }] }

/-- The dry-run configuration used to witness the dry-run claim. -/
def cfgDry : Config :=
  { PackageID := "MyOrg.MyApp"
    DryRun := true
    Installers := [{ URL := "https://example.com/app.msi", Architecture := "x64", Typ := "msi" }] }

/-- A world whose network refuses every connection, to witness that dry-run
runs touch nothing. -/
def worldOffline : World :=
  { net := fun _ => .failConn "connection refused"
    gh := { userResp := .error "connection refused"
            probeResp := .error "connection refused"
            createForkResp := .error "connection refused"
            branchSHAResp := .error "connection refused"
            createBranchResp := .error "connection refused"
            putFileResp := fun _ => .error "connection refused"
            createPRResp := .error "connection refused" } }

/-- A GitHub world whose fork-existence probe answers 204 (a 2xx status that
is not 200). -/
def ghProbe204 : GhWorld :=
  { userResp := .ok { status := 200, body := "octo" }
    probeResp := .ok { status := 204, body := "" }
    createForkResp := .ok { status := 202, body := "" } }

/-- The GitHub world of scenario D: probe answers 404, fork creation 202. -/
def ghScenarioD : GhWorld :=
  { userResp := .ok { status := 200, body := "octo" }
    probeResp := .ok { status := 404, body := "" }
    createForkResp := .ok { status := 202, body := "" } }

/-- A short description of 129 two-byte characters: 129 characters but 258
UTF-8 bytes. -/
def descTwoByte : String := String.mk (List.replicate 129 'é')

/-- A configuration carrying `descTwoByte` as its short description. -/
def cfgTwoByteDesc : Config := { Metadata := { ShortDescription := descTwoByte } }

/-- The manifest set generated for the `MyOrg.MyApp` scenario. -/
def msMyOrg : ManifestSet := goOkD (GenerateManifests cfgMyOrg "1.0.0" []) emptyManifestSet

/-! ### Supporting lemmas about the digest -/

/-- One compression round preserves the length of the state vector. -/
theorem SHA256.round_length (st : List Nat) (kw : Nat × Nat) :
    (SHA256.round st kw).length = st.length := by
  unfold SHA256.round
  split
  · simp
  · rfl

/-- Folding compression rounds preserves the length of the state vector. -/
theorem SHA256.foldl_round_length (l : List (Nat × Nat)) :
    ∀ st : List Nat, (l.foldl SHA256.round st).length = st.length := by
  induction l with
  | nil => intro st; rfl
  | cons kw rest ih => intro st; rw [List.foldl_cons, ih, SHA256.round_length]

/-- Compressing one block preserves the 8-word state shape. -/
theorem SHA256.compress_length (st block : List Nat) (h : st.length = 8) :
    (SHA256.compress st block).length = 8 := by
  unfold SHA256.compress
  rw [List.length_map, List.length_zip, SHA256.foldl_round_length, h]
  simp

/-- Folding block compression preserves the 8-word state shape. -/
theorem SHA256.foldl_compress_length (blocks : List (List Nat)) :
    ∀ st : List Nat, st.length = 8 → (blocks.foldl SHA256.compress st).length = 8 := by
  induction blocks with
  | nil => intro st h; exact h
  | cons b rest ih =>
    intro st h
    rw [List.foldl_cons]
    exact ih _ (SHA256.compress_length st b h)

/-- Serializing a word list yields four bytes per word. -/
theorem SHA256.flatMap_toBE32_length (l : List Nat) :
    (l.flatMap SHA256.toBE32).length = 4 * l.length := by
  induction l with
  | nil => rfl
  | cons w rest ih =>
    simp only [List.flatMap_cons, List.length_append, ih, SHA256.toBE32, List.length_cons,
      List.length_nil]
    ring

/-- The digest always consists of 32 bytes. -/
theorem SHA256.sha256Bytes_length (msg : List Nat) : (SHA256.sha256Bytes msg).length = 32 := by
  unfold SHA256.sha256Bytes
  rw [SHA256.flatMap_toBE32_length, SHA256.foldl_compress_length _ _ (by decide)]

/-- Every serialized digest byte is below 256. -/
theorem SHA256.sha256Bytes_lt (msg : List Nat) : ∀ b ∈ SHA256.sha256Bytes msg, b < 256 := by
  intro b hb
  unfold SHA256.sha256Bytes at hb
  rw [List.mem_flatMap] at hb
  obtain ⟨w, -, hw⟩ := hb
  simp only [SHA256.toBE32, List.mem_cons, List.not_mem_nil, or_false] at hw
  rcases hw with h | h | h | h <;> subst h <;> exact Nat.mod_lt _ (by norm_num)

/-- Hex digits of values below 16 are uppercase hexadecimal characters. -/
theorem SHA256.hexDigitUpper_mem : ∀ n < 16, SHA256.hexDigitUpper n ∈ ("0123456789ABCDEF").data := by
  decide

/-- Hex encoding yields two characters per byte. -/
theorem SHA256.bytesToHexUpper_length (bs : List Nat) :
    (SHA256.bytesToHexUpper bs).length = 2 * bs.length := by
  unfold SHA256.bytesToHexUpper
  show (bs.flatMap _).length = 2 * bs.length
  induction bs with
  | nil => rfl
  | cons b rest ih =>
    simp only [List.flatMap_cons, List.length_append, ih, List.length_cons, List.length_nil]
    ring

/-- Every character of the hex encoding of small bytes is an uppercase
hexadecimal character. -/
theorem SHA256.bytesToHexUpper_chars (bs : List Nat) (hb : ∀ b ∈ bs, b < 256) :
    ∀ c ∈ (SHA256.bytesToHexUpper bs).data, c ∈ ("0123456789ABCDEF").data := by
  intro c hc
  unfold SHA256.bytesToHexUpper at hc
  rw [show (String.mk (bs.flatMap fun b =>
      [SHA256.hexDigitUpper (b / 16), SHA256.hexDigitUpper (b % 16)])).data =
      bs.flatMap fun b =>
      [SHA256.hexDigitUpper (b / 16), SHA256.hexDigitUpper (b % 16)] from rfl,
    List.mem_flatMap] at hc
  obtain ⟨b, hbmem, hcb⟩ := hc
  have hlt : b < 256 := hb b hbmem
  simp only [List.mem_cons, List.not_mem_nil, or_false] at hcb
  rcases hcb with h | h <;> subst h
  · exact SHA256.hexDigitUpper_mem _ (by omega)
  · exact SHA256.hexDigitUpper_mem _ (Nat.mod_lt _ (by norm_num))

/-! ### Supporting lemmas: identifier splitting -/

/-- Splitting finds nothing exactly when the separator does not occur. -/
theorem splitOnceAt_eq_none_iff (sep : Char) (l : List Char) :
    splitOnceAt sep l = none ↔ sep ∉ l := by
  induction l with
  | nil => simp [splitOnceAt]
  | cons c cs ih =>
    unfold splitOnceAt
    rw [List.mem_cons, not_or]
    by_cases hc : c = sep
    · rw [if_pos hc]
      subst hc
      simp
    · rw [if_neg hc]
      cases hsp : splitOnceAt sep cs with
      | none =>
        have hns : sep ∉ cs := ih.mp hsp
        simp only [hsp]
        exact ⟨fun _ => ⟨fun h => hc h.symm, hns⟩, fun _ => trivial⟩
      | some p =>
        obtain ⟨a, b⟩ := p
        have hmem : sep ∈ cs := by
          by_contra hm
          rw [ih.mpr hm] at hsp
          cases hsp
        simp only [hsp]
        constructor
        · intro hcontra
          cases hcontra
        · intro hcon
          exact absurd hmem hcon.2

/-- Splitting a list with a separator-free head part finds that very split. -/
theorem splitOnceAt_append (a b : List Char) (h : '.' ∉ a) :
    splitOnceAt '.' (a ++ '.' :: b) = some (a, b) := by
  induction a with
  | nil => simp [splitOnceAt]
  | cons c cs ih =>
    rw [List.mem_cons, not_or] at h
    rw [List.cons_append]
    unfold splitOnceAt
    rw [if_neg (fun hh => h.1 hh.symm), ih h.2]

/-- Embedded `strings.SplitN(·, ".", 2)` on an identifier assembled from a
separator-free namespace and an arbitrary name. -/
theorem splitN2_append (ns nm : String) (h : '.' ∉ ns.data) :
    splitN2 (ns ++ "." ++ nm) = [ns, nm] := by
  unfold splitN2
  have hd : (ns ++ "." ++ nm).data = ns.data ++ '.' :: nm.data := by
    rw [String.data_append, String.data_append, List.append_assoc]
    show ns.data ++ (".".data ++ nm.data) = ns.data ++ ('.' :: nm.data)
    rfl
  rw [hd, splitOnceAt_append _ _ h]

/-! ### Supporting lemmas: serialized documents -/

/-- Every document produced by `addYAMLHeader` starts with the fixed
two-line header comment. -/
theorem addYAMLHeader_isPrefixOf (content : String) :
    yamlHeaderLines.data.isPrefixOf (addYAMLHeader content).data = true := by
  rw [List.isPrefixOf_iff_prefix]
  unfold addYAMLHeader
  rw [String.append_assoc, String.data_append]
  exact List.prefix_append _ _

/-! ### Supporting lemmas: validation -/

/-- Membership in a conditional singleton error chunk. -/
theorem mem_if_singleton {α : Type} (p x : α) (c : Prop) [Decidable c] :
    p ∈ (if c then [x] else []) ↔ c ∧ p = x := by
  split <;> simp_all

/-- Every per-installer validation error carries one of the two installer
messages. -/
theorem installerErrorsAux_snd (l : List InstallerConfig) :
    ∀ i : Nat, ∀ p ∈ installerErrorsAux i l,
      p.2 = "Installer URL is required" ∨
      p.2 = "Architecture must be x86, x64, arm, or arm64" := by
  induction l with
  | nil =>
    intro i p hp
    simp [installerErrorsAux] at hp
  | cons ic rest ih =>
    intro i p hp
    simp only [installerErrorsAux, List.mem_append, mem_if_singleton] at hp
    rcases hp with (⟨-, rfl⟩ | ⟨-, rfl⟩) | hp
    · left; rfl
    · right; rfl
    · exact ih (i + 1) p hp

/-! ### Supporting lemmas: the redirect loop -/

/-- A resource `k` redirect hops away is fetched successfully provided the
`via` counter stays below the cap and the fuel does not run out first. -/
theorem clientFollowAux_reaches (net : String → HttpStep) :
    ∀ (k via fuel : Nat) (url : String) (s : Nat) (b : List Nat),
      via + k ≤ 10 → k ≤ fuel → ReachesIn net url k s b →
      clientFollowAux net fuel via url = .ok (s, b) := by
  intro k
  induction k with
  | zero =>
    intro via fuel url s b _ _ h
    cases h with
    | done hf =>
      cases fuel with
      | zero => simp only [clientFollowAux, hf]
      | succ f => simp only [clientFollowAux, hf]
  | succ n ih =>
    intro via fuel url s b hvia hfuel h
    cases h with
    | step hr hrest =>
      rename_i loc
      cases fuel with
      | zero => omega
      | succ f =>
        have hstep : clientFollowAux net (f + 1) via url =
            if via ≥ 10 then Except.error "too many redirects"
            else clientFollowAux net f (via + 1) loc := by
          simp only [clientFollowAux, hr]
        rw [hstep, if_neg (by omega)]
        exact ih (via + 1) f _ s b (by omega) (by omega) hrest

/-- A chain still requiring a redirect once the `via` counter reaches the
cap makes the loop fail with the redirect error. -/
theorem clientFollowAux_tooMany (net : String → HttpStep) :
    ∀ (k via fuel : Nat) (url : String),
      via + k = 11 → 1 ≤ k → k - 1 ≤ fuel → RedirectsAtLeast net url k →
      clientFollowAux net fuel via url = .error "too many redirects" := by
  intro k
  induction k with
  | zero => omega
  | succ n ih =>
    intro via fuel url hvia _ hfuel h
    cases h with
    | succ hr hrest =>
      rename_i loc
      by_cases hv : via ≥ 10
      · cases fuel with
        | zero => simp only [clientFollowAux, hr]
        | succ f =>
          have hstep : clientFollowAux net (f + 1) via url =
              if via ≥ 10 then Except.error "too many redirects"
              else clientFollowAux net f (via + 1) loc := by
            simp only [clientFollowAux, hr]
          rw [hstep, if_pos hv]
      · have hn : 1 ≤ n := by omega
        cases fuel with
        | zero => omega
        | succ f =>
          have hstep : clientFollowAux net (f + 1) via url =
              if via ≥ 10 then Except.error "too many redirects"
              else clientFollowAux net f (via + 1) loc := by
            simp only [clientFollowAux, hr]
          rw [hstep, if_neg hv]
          exact ih (via + 1) f _ (by omega) hn (by omega) hrest

/-! ### Supporting lemmas: the dry-run installer loop -/

/-- In dry-run mode the installer loop issues no request and substitutes the
placeholder digest into every installer record. -/
theorem buildInstallers_dryRun (w : World) (version : String) :
    ∀ (l : List InstallerConfig) (i : Nat),
      buildInstallers w version true i l = (.ok (l.map (dryRunInstaller version)), []) := by
  intro l
  induction l with
  | nil =>
    intro i
    rfl
  | cons ic rest ih =>
    intro i
    unfold buildInstallers
    rw [if_pos rfl]
    simp only [ih (i + 1), List.map_cons]
    rfl

/-! ### Claim C6 -/

/-- Claim C6: `CalculateHashFromBytes` always returns the uppercase
hexadecimal encoding of the SHA-256 digest of its input: on the empty byte
sequence it returns exactly the well-known digest of zero bytes, its output
is a 64-character uppercase hexadecimal string for every input, and it is a
pure function (identical inputs give identical results). -/
theorem C6_hash_from_bytes :
    CalculateHashFromBytes [] =
      "E3B0C44298FC1C149AFBF4C8996FB92427AE41E4649B934CA495991B7852B855" ∧
    (∀ data : List Nat, (CalculateHashFromBytes data).length = 64 ∧
      ∀ c ∈ (CalculateHashFromBytes data).data, c ∈ ("0123456789ABCDEF").data) ∧
    (∀ d₁ d₂ : List Nat, d₁ = d₂ → CalculateHashFromBytes d₁ = CalculateHashFromBytes d₂) := by
  refine ⟨by decide, fun data => ⟨?_, ?_⟩, fun d₁ d₂ h => h ▸ rfl⟩
  · show (SHA256.bytesToHexUpper _).length = 64
    rw [SHA256.bytesToHexUpper_length, SHA256.sha256Bytes_length]
  · exact SHA256.bytesToHexUpper_chars _ (SHA256.sha256Bytes_lt data)

/-- Witness for C6 at a concrete input. -/
theorem C6_witness :
    CalculateHashFromBytes [97] = CalculateHashFromBytes [97] ∧
    (CalculateHashFromBytes [97]).length = 64 :=
  ⟨C6_hash_from_bytes.2.2 [97] [97] rfl, (C6_hash_from_bytes.2.1 [97]).1⟩

/-! ### Claim C7 -/

/-- Counterexample to claim C7 as stated: a final response with status 204
is inside the 2xx range, yet `CalculateInstallerHash` fails on it (the code
accepts only status 200). -/
theorem C7_counterexample :
    (200 ≤ 204 ∧ 204 < 300) ∧
    clientDo net204 "https://example.com/i.msi" = .ok (204, []) ∧
    CalculateInstallerHash net204 "https://example.com/i.msi" =
      .error "download failed with status 204" :=
  ⟨by norm_num, rfl, rfl⟩

/-- Claim C7 (amended): for every final response received, the call is a
terminal error exactly when the status differs from 200, the error carries
the observed status code, and a status of exactly 200 passes the check. -/
theorem C7_amended_status_check (net : String → HttpStep) (url : String) (s : Nat)
    (b : List Nat) (h : clientDo net url = .ok (s, b)) :
    ((CalculateInstallerHash net url).isErrB = true ↔ s ≠ 200) ∧
    (s ≠ 200 →
      CalculateInstallerHash net url = .error ("download failed with status " ++ Nat.repr s)) ∧
    (s = 200 → CalculateInstallerHash net url = .ok (CalculateHashFromBytes b)) := by
  by_cases hs : s = 200
  · subst hs
    simp only [CalculateInstallerHash, h]
    simp [Except.isErrB]
  · simp only [CalculateInstallerHash, h]
    rw [if_pos hs]
    simp [Except.isErrB, hs]

/-- Witness for C7 (amended) at a concrete 404 response. -/
theorem C7_witness :
    clientDo net404 "https://example.com/i.msi" = .ok (404, []) ∧
    CalculateInstallerHash net404 "https://example.com/i.msi" =
      .error ("download failed with status " ++ Nat.repr 404) :=
  ⟨rfl, (C7_amended_status_check net404 "https://example.com/i.msi" 404 [] rfl).2.1
    (by norm_num)⟩

/-! ### Claim C8 -/

/-- Counterexample to claim C8 as stated: a resource reachable after exactly
10 redirects (within the claimed cap of 10) is not fetched — the embedded
`len(via) >= 10` check already refuses the tenth redirect, so only 9
redirects are ever followed. -/
theorem C8_counterexample :
    (10 ≤ 10) ∧
    ReachesIn net10 "u0" 10 200 [97] ∧
    CalculateInstallerHash net10 "u0" =
      .error "failed to download installer: too many redirects" := by
  refine ⟨by norm_num, ?_, rfl⟩
  exact @ReachesIn.step net10 "u0" "u1" 9 200 [97] (by decide)
    (@ReachesIn.step net10 "u1" "u2" 8 200 [97] (by decide)
    (@ReachesIn.step net10 "u2" "u3" 7 200 [97] (by decide)
    (@ReachesIn.step net10 "u3" "u4" 6 200 [97] (by decide)
    (@ReachesIn.step net10 "u4" "u5" 5 200 [97] (by decide)
    (@ReachesIn.step net10 "u5" "u6" 4 200 [97] (by decide)
    (@ReachesIn.step net10 "u6" "u7" 3 200 [97] (by decide)
    (@ReachesIn.step net10 "u7" "u8" 2 200 [97] (by decide)
    (@ReachesIn.step net10 "u8" "u9" 1 200 [97] (by decide)
    (@ReachesIn.step net10 "u9" "u10" 0 200 [97] (by decide)
    (@ReachesIn.done net10 "u10" 200 [97] (by decide)))))))))))

/-- Claim C8 (amended): the embedded client follows redirect chains of at
most 9 hops — every resource whose chain has at most 9 redirects and ends in
a 200 hashes identically to hashing the final resource's bytes directly, and
a chain still requiring a tenth redirect is a terminal, non-retried error. -/
theorem C8_amended_redirect_cap :
    (∀ (net : String → HttpStep) (url : String) (k : Nat) (b : List Nat),
      k ≤ 9 → ReachesIn net url k 200 b →
      CalculateInstallerHash net url = .ok (CalculateHashFromBytes b)) ∧
    (∀ (net : String → HttpStep) (url : String),
      RedirectsAtLeast net url 10 →
      CalculateInstallerHash net url =
        .error "failed to download installer: too many redirects") := by
  constructor
  · intro net url k b hk h
    have hdo : clientDo net url = .ok (200, b) :=
      clientFollowAux_reaches net k 1 10 url 200 b (by omega) (by omega) h
    simp only [CalculateInstallerHash, hdo]
    simp
  · intro net url h
    have hdo : clientDo net url = .error "too many redirects" :=
      clientFollowAux_tooMany net 10 1 10 url (by norm_num) (by norm_num) (by norm_num) h
    simp only [CalculateInstallerHash, hdo]
    rfl

/-- Witness for C8 (amended): a one-redirect chain to the bytes `"abc"`
yields the known digest of those bytes. -/
theorem C8_witness :
    (1 ≤ 9) ∧
    CalculateInstallerHash netOneHop "a" =
      .ok "BA7816BF8F01CFEA414140DE5DAE2223B00361A396177A9CB410FF61F20015AD" := by
  refine ⟨by norm_num, ?_⟩
  have h := C8_amended_redirect_cap.1 netOneHop "a" 1 [97, 98, 99] (by norm_num)
    (@ReachesIn.step netOneHop "a" "b" 0 200 [97, 98, 99] (by decide)
      (@ReachesIn.done netOneHop "b" 200 [97, 98, 99] (by decide)))
  have hh : CalculateHashFromBytes [97, 98, 99] =
      "BA7816BF8F01CFEA414140DE5DAE2223B00361A396177A9CB410FF61F20015AD" := by decide
  rw [hh] at h
  exact h

/-! ### Claim C1 -/

/-- Counterexample to claim C1 as stated: the identifier `"App."` cannot be
split into two non-empty segments (its second segment is empty), yet
`GenerateManifests` does not fail on it — the source only checks that a
separator exists, not that the segments are non-empty. -/
theorem C1_counterexample :
    specCanSplitTwoNonEmpty "App." = false ∧
    cfgEmptyRest.PackageID = "App." ∧
    (GenerateManifests cfgEmptyRest "1.0.0" []).isErr = false ∧
    (GenerateManifests cfgEmptyRest "1.0.0" []).isOk = true := by
  decide

/-- Claim C1 (amended): `GenerateManifests` fails with the invalid-identifier
error if and only if the package identifier contains no `'.'` separator at
all; the error message carries the identifier; and every identifier that
splits into two non-empty segments yields a manifest set (no identifier
error). -/
theorem C1_amended_identifier_error (cfg : Config) (version : String)
    (installers : List Installer) :
    ((GenerateManifests cfg version installers).isErr = true ↔ '.' ∉ cfg.PackageID.data) ∧
    ((GenerateManifests cfg version installers).isErr = true →
      GenerateManifests cfg version installers =
        .err ("invalid package ID format: " ++ cfg.PackageID)) ∧
    (specCanSplitTwoNonEmpty cfg.PackageID = true →
      (GenerateManifests cfg version installers).isOk = true) := by
  cases hsp : splitOnceAt '.' cfg.PackageID.data with
  | none =>
    have hsplit : splitN2 cfg.PackageID = [cfg.PackageID] := by
      unfold splitN2
      rw [hsp]
    have hmem : '.' ∉ cfg.PackageID.data := (splitOnceAt_eq_none_iff _ _).mp hsp
    have hgen : GenerateManifests cfg version installers =
        .err ("invalid package ID format: " ++ cfg.PackageID) := by
      unfold GenerateManifests
      rw [hsplit]
    refine ⟨?_, fun _ => hgen, ?_⟩
    · rw [hgen]
      exact ⟨fun _ => hmem, fun _ => rfl⟩
    · intro hspec
      rw [specCanSplitTwoNonEmpty, hsplit] at hspec
      cases hspec
  | some p =>
    obtain ⟨a, b⟩ := p
    have hmem : '.' ∈ cfg.PackageID.data := by
      by_contra hm
      rw [(splitOnceAt_eq_none_iff _ _).mpr hm] at hsp
      cases hsp
    have hsplit : splitN2 cfg.PackageID = [String.mk a, String.mk b] := by
      unfold splitN2
      rw [hsp]
    cases a with
    | nil =>
      have hgen : GenerateManifests cfg version installers = .panics := by
        unfold GenerateManifests
        rw [hsplit]
      refine ⟨?_, ?_, ?_⟩
      · rw [hgen]
        exact ⟨(fun hh => nomatch hh), (fun hh => absurd hmem hh)⟩
      · rw [hgen]
        intro hh
        cases hh
      · intro hspec
        rw [specCanSplitTwoNonEmpty, hsplit] at hspec
        simp at hspec
    | cons c cs =>
      have hh : (GenerateManifests cfg version installers).isErr = false ∧
          (GenerateManifests cfg version installers).isOk = true := by
        unfold GenerateManifests
        rw [hsplit]
        exact ⟨rfl, rfl⟩
      refine ⟨?_, ?_, fun _ => hh.2⟩
      · rw [hh.1]
        exact ⟨(fun hc => nomatch hc), (fun hc => absurd hmem hc)⟩
      · intro hc
        rw [hh.1] at hc
        cases hc

/-- Witness for C1 (amended) at concrete identifiers. -/
theorem C1_witness :
    specCanSplitTwoNonEmpty "MyOrg.MyApp" = true ∧
    (GenerateManifests cfgMyOrg "1.0.0" []).isOk = true ∧
    (GenerateManifests { PackageID := "InvalidPackageID" } "1.0.0" []).isErr = true := by
  refine ⟨by decide, (C1_amended_identifier_error cfgMyOrg "1.0.0" []).2.2 (by decide), ?_⟩
  exact (C1_amended_identifier_error { PackageID := "InvalidPackageID" } "1.0.0" []).1.mpr
    (by decide)

/-! ### Claim C4 -/

/-- Claim C4: whenever `GenerateManifests` succeeds, the three produced
documents agree on their identifier and version fields — all carry the
configured package identifier and the given release version. -/
theorem C4_manifests_agree (cfg : Config) (version : String) (installers : List Installer)
    (ms : ManifestSet) (h : GenerateManifests cfg version installers = .ok ms) :
    ms.Version.PackageIdentifier = cfg.PackageID ∧
    ms.Installer.PackageIdentifier = cfg.PackageID ∧
    ms.Locale.PackageIdentifier = cfg.PackageID ∧
    ms.Version.PackageVersion = version ∧
    ms.Installer.PackageVersion = version ∧
    ms.Locale.PackageVersion = version := by
  unfold GenerateManifests at h
  split at h
  · split at h
    · cases h
    · cases h
      exact ⟨rfl, rfl, rfl, rfl, rfl, rfl⟩
  · cases h

/-- Witness for C4 at the `MyOrg.MyApp` scenario. -/
theorem C4_witness :
    GenerateManifests cfgMyOrg "1.0.0" [] = .ok msMyOrg ∧
    msMyOrg.Version.PackageIdentifier = cfgMyOrg.PackageID ∧
    msMyOrg.Locale.PackageVersion = "1.0.0" := by
  have h : GenerateManifests cfgMyOrg "1.0.0" [] = .ok msMyOrg := by decide
  have hc := C4_manifests_agree cfgMyOrg "1.0.0" [] msMyOrg h
  exact ⟨h, hc.1, hc.2.2.2.2.2⟩

/-! ### Claim C3 -/

/-- Claim C3: for a manifest set generated from an identifier
`<Namespace>.<Name>` and version `v`, `GetFiles` returns exactly three
entries keyed `<prefix>/<identifier>.yaml`,
`<prefix>/<identifier>.installer.yaml` and
`<prefix>/<identifier>.locale.en-US.yaml`, where `<prefix>` is
`manifests/<lowercased first character of Namespace>/<identifier>/<v>`, and
every entry's content begins with the fixed two-line header comment. -/
theorem C3_getfiles_paths_header (cfg : Config) (version ns nm : String)
    (installers : List Installer) (ms : ManifestSet)
    (hns : ns ≠ "") (hnd : '.' ∉ ns.data)
    (hid : cfg.PackageID = ns ++ "." ++ nm)
    (hgen : GenerateManifests cfg version installers = .ok ms) :
    ms.GetFiles.map Prod.fst =
      ["manifests/" ++ lowerFirstChar ns ++ "/" ++ cfg.PackageID ++ "/" ++ version ++ "/" ++
         cfg.PackageID ++ ".yaml",
       "manifests/" ++ lowerFirstChar ns ++ "/" ++ cfg.PackageID ++ "/" ++ version ++ "/" ++
         cfg.PackageID ++ ".installer.yaml",
       "manifests/" ++ lowerFirstChar ns ++ "/" ++ cfg.PackageID ++ "/" ++ version ++ "/" ++
         cfg.PackageID ++ ".locale.en-US.yaml"] ∧
    ∀ p ∈ ms.GetFiles, yamlHeaderLines.data.isPrefixOf p.2.data = true := by
  unfold GenerateManifests at hgen
  rw [hid] at hgen ⊢
  rw [splitN2_append ns nm hnd] at hgen
  dsimp only at hgen
  cases hd : ns.data with
  | nil =>
    exact absurd (by cases ns; cases hd; rfl) hns
  | cons c cs =>
    rw [hd] at hgen
    cases hgen
    have hfl : lowerFirstChar ns = String.mk [c.toLower] := by
      unfold lowerFirstChar
      rw [hd]
      rfl
    constructor
    · rw [hfl]
      rfl
    · intro p hp
      simp only [ManifestSet.GetFiles, List.mem_cons, List.not_mem_nil, or_false] at hp
      rcases hp with h | h | h <;> rw [h] <;> exact addYAMLHeader_isPrefixOf _

/-- Witness for C3 at the `MyOrg.MyApp` scenario. -/
theorem C3_witness :
    msMyOrg.GetFiles.map Prod.fst =
      ["manifests/" ++ lowerFirstChar "MyOrg" ++ "/" ++ cfgMyOrg.PackageID ++ "/" ++ "1.0.0" ++
         "/" ++ cfgMyOrg.PackageID ++ ".yaml",
       "manifests/" ++ lowerFirstChar "MyOrg" ++ "/" ++ cfgMyOrg.PackageID ++ "/" ++ "1.0.0" ++
         "/" ++ cfgMyOrg.PackageID ++ ".installer.yaml",
       "manifests/" ++ lowerFirstChar "MyOrg" ++ "/" ++ cfgMyOrg.PackageID ++ "/" ++ "1.0.0" ++
         "/" ++ cfgMyOrg.PackageID ++ ".locale.en-US.yaml"] ∧
    ∀ p ∈ msMyOrg.GetFiles, yamlHeaderLines.data.isPrefixOf p.2.data = true :=
  C3_getfiles_paths_header cfgMyOrg "1.0.0" "MyOrg" "MyApp" [] msMyOrg
    (by decide) (by decide) (by decide) (by decide)

/-! ### Claim C9 -/

/-- Claim C9: for every request whose hook is not the post-publish hook,
`Execute` answers with success `true`, the message
`"Hook <hook> not handled by winget plugin"`, a `nil` error, and performs no
hashing, manifest generation, or network activity (the request trace is
empty and the result is exactly the no-op response). -/
theorem C9_unhandled_hook (w : World) (hook : String) (reqDryRun : Bool) (version : String)
    (cfg : Config) (h : hook ≠ HookPostPublish) :
    WinGetPlugin.Execute w hook reqDryRun version cfg =
      (.ok { Success := true, Message := "Hook " ++ hook ++ " not handled by winget plugin" },
       []) := by
  unfold WinGetPlugin.Execute
  dsimp only
  rw [if_neg h]

/-- Witness for C9 at a concrete unhandled hook. -/
theorem C9_witness :
    WinGetPlugin.Execute worldOffline "pre-publish" false "1.0.0" cfgMyOrg =
      (.ok { Success := true, Message := "Hook pre-publish not handled by winget plugin" },
       []) := by
  have h := C9_unhandled_hook worldOffline "pre-publish" false "1.0.0" cfgMyOrg (by decide)
  rw [h]
  decide

/-! ### Claim C2 -/

/-- One dry-run characterization of the orchestrator: placeholders instead
of downloads, no requests, and the synthetic dry-run response on success. -/
theorem executePostPublish_dryRun (w : World) (version : String) (cfg : Config)
    (hdr : cfg.DryRun = true) :
    executePostPublish w version cfg =
      (match GenerateManifests cfg version (cfg.Installers.map (dryRunInstaller version)) with
       | .panics => .panics
       | .err e => .ok { Success := false, Message := "Failed to generate manifests: " ++ e }
       | .ok _ => .ok { Success := true
                        Message := "[DRY-RUN] Would create PR for " ++ cfg.PackageID ++
                          " version " ++ version },
       []) := by
  unfold executePostPublish
  rw [hdr, buildInstallers_dryRun w version cfg.Installers 0]
  cases hg : GenerateManifests cfg version (cfg.Installers.map (dryRunInstaller version)) with
  | panics => simp [hg]
  | err e => simp [hg]
  | ok ms => simp [hg]

/-- Claim C2: with the dry-run flag set, `executePostPublish` issues no
request at all (no download, fork, branch, commit, or pull-request call),
substitutes the fixed 64-zero placeholder digest for every installer, and
whenever manifest generation succeeds it returns a success result carrying
the `[DRY-RUN]` message with the configured identifier and version. -/
theorem C2_dry_run_no_network (w : World) (version : String) (cfg : Config)
    (hdr : cfg.DryRun = true) :
    (executePostPublish w version cfg).2 = [] ∧
    ((buildInstallers w version cfg.DryRun 0 cfg.Installers =
        (.ok (cfg.Installers.map (dryRunInstaller version)), [])) ∧
      ∀ inst ∈ cfg.Installers.map (dryRunInstaller version),
        inst.InstallerSha256 = dryRunHash) ∧
    (∀ ms, GenerateManifests cfg version (cfg.Installers.map (dryRunInstaller version)) = .ok ms →
      (executePostPublish w version cfg).1 =
        .ok { Success := true
              Message := "[DRY-RUN] Would create PR for " ++ cfg.PackageID ++
                " version " ++ version }) := by
  have hmain := executePostPublish_dryRun w version cfg hdr
  refine ⟨?_, ⟨?_, ?_⟩, ?_⟩
  · rw [hmain]
  · rw [hdr]
    exact buildInstallers_dryRun w version cfg.Installers 0
  · intro inst hi
    rw [List.mem_map] at hi
    obtain ⟨ic, -, rfl⟩ := hi
    rfl
  · intro ms hg
    rw [hmain, hg]

/-- Witness for C2: a dry-run against a world whose every connection is
refused still succeeds with the dry-run message and an empty trace. -/
theorem C2_witness :
    (executePostPublish worldOffline "1.0.0" cfgDry).2 = [] ∧
    (executePostPublish worldOffline "1.0.0" cfgDry).1 =
      .ok { Success := true
            Message := "[DRY-RUN] Would create PR for MyOrg.MyApp version 1.0.0" } := by
  have h := C2_dry_run_no_network worldOffline "1.0.0" cfgDry rfl
  refine ⟨h.1, ?_⟩
  have h3 := h.2.2 (goOkD (GenerateManifests cfgDry "1.0.0"
      (cfgDry.Installers.map (dryRunInstaller "1.0.0"))) emptyManifestSet) (by decide)
  rw [h3]
  decide

/-! ### Claim C5 -/

/-- Unfolding of `EnsureFork` for an unconfigured fork owner. -/
theorem EnsureFork_empty (w : GhWorld) :
    EnsureFork w "" =
      (match getCurrentUser w with
       | .error e => (.error ("failed to get current user: " ++ e), [.ghGetUser])
       | .ok user =>
         match forkExists w with
         | .error e => (.error ("failed to check fork: " ++ e), [.ghGetUser, .ghProbeFork user])
         | .ok exists_ =>
           if exists_ then (.ok user, [.ghGetUser, .ghProbeFork user])
           else
             match createFork w with
             | .error e =>
               (.error ("failed to create fork: " ++ e),
                [.ghGetUser, .ghProbeFork user, .ghCreateFork])
             | .ok _ =>
               (.ok user,
                [.ghGetUser, .ghProbeFork user, .ghCreateFork, .sleepSeconds 5])) := by
  unfold EnsureFork
  rw [if_neg (fun hc => hc rfl)]

/-- Counterexample to claim C5 as stated: a fork-existence probe answering
204 — a 2xx status — is treated as "fork absent": fork creation is requested
although the claim says a 2xx probe response means the fork exists (the code
compares the probe status with 200 only). -/
theorem C5_counterexample :
    (200 ≤ 204 ∧ 204 < 300) ∧
    ghProbe204.probeResp = .ok { status := 204, body := "" } ∧
    EnsureFork ghProbe204 "" =
      (.ok "octo",
       [.ghGetUser, .ghProbeFork "octo", .ghCreateFork, .sleepSeconds 5]) ∧
    (EnsureFork ghProbe204 "").2 ≠ [NetEvent.ghGetUser, NetEvent.ghProbeFork "octo"] :=
  ⟨by norm_num, rfl, rfl, by decide⟩

/-- Claim C5 (amended): `EnsureFork` returns an explicitly configured fork
owner immediately with no request; otherwise it resolves the identity, and a
probe status of exactly 200 (not: any 2xx) means the fork exists and the
identity is returned without fork creation; any other probe status triggers
fork creation, which accepts status 200 or 202, is followed by the fixed
5-second settling delay, and returns the identity; failures of identity
resolution, the existence probe, or fork creation fail the whole call. -/
theorem C5_amended_ensure_fork (w : GhWorld) (owner : String) :
    (owner ≠ "" → EnsureFork w owner = (.ok owner, [])) ∧
    (∀ r : GhResponse, w.userResp = .ok r → r.status < 400 →
      (∀ p : GhResponse, w.probeResp = .ok p → p.status = 200 →
        EnsureFork w "" = (.ok r.body, [.ghGetUser, .ghProbeFork r.body])) ∧
      (∀ p c : GhResponse, w.probeResp = .ok p → p.status ≠ 200 →
        w.createForkResp = .ok c → (c.status = 202 ∨ c.status = 200) →
        EnsureFork w "" =
          (.ok r.body,
           [.ghGetUser, .ghProbeFork r.body, .ghCreateFork, .sleepSeconds 5]))) ∧
    ((∀ e, w.userResp = .error e → (EnsureFork w "").1.isErrB = true) ∧
     (∀ r : GhResponse, w.userResp = .ok r → r.status ≥ 400 →
       (EnsureFork w "").1.isErrB = true) ∧
     (∀ r : GhResponse, w.userResp = .ok r → r.status < 400 →
       ∀ e, w.probeResp = .error e → (EnsureFork w "").1.isErrB = true) ∧
     (∀ r p : GhResponse, w.userResp = .ok r → r.status < 400 → w.probeResp = .ok p →
       p.status ≠ 200 →
       (∀ e, w.createForkResp = .error e → (EnsureFork w "").1.isErrB = true) ∧
       (∀ c : GhResponse, w.createForkResp = .ok c → c.status ≠ 202 → c.status ≠ 200 →
         (EnsureFork w "").1.isErrB = true))) := by
  refine ⟨?_, ?_, ?_, ?_, ?_, ?_⟩
  · intro h
    unfold EnsureFork
    rw [if_pos h]
  · intro r hr hlt
    have hu : getCurrentUser w = .ok r.body := by
      unfold getCurrentUser doRequest
      simp only [hr]
      rw [if_neg (by omega)]
    constructor
    · intro p hp hps
      have hf : forkExists w = .ok true := by
        unfold forkExists
        rw [hp]
        simp [hps]
      rw [EnsureFork_empty]
      simp only [hu, hf]
      simp
    · intro p c hp hps hc hcs
      have hf : forkExists w = .ok false := by
        unfold forkExists
        rw [hp]
        simp [hps]
      have hcf : createFork w = .ok () := by
        unfold createFork
        simp only [hc]
        rw [if_neg (by rcases hcs with h | h <;> simp [h])]
      rw [EnsureFork_empty]
      simp only [hu, hf, hcf]
      simp
  · intro e he
    have hu : getCurrentUser w = .error e := by
      unfold getCurrentUser doRequest
      simp only [he]
    rw [EnsureFork_empty]
    simp only [hu]
    rfl
  · intro r hr hge
    have hu : getCurrentUser w =
        .error ("API error " ++ Nat.repr r.status ++ ": " ++ r.body) := by
      unfold getCurrentUser doRequest
      simp only [hr]
      rw [if_pos hge]
    rw [EnsureFork_empty]
    simp only [hu]
    rfl
  · intro r hr hlt e he
    have hu : getCurrentUser w = .ok r.body := by
      unfold getCurrentUser doRequest
      simp only [hr]
      rw [if_neg (by omega)]
    have hf : forkExists w = .error e := by
      unfold forkExists
      simp only [he]
    rw [EnsureFork_empty]
    simp only [hu, hf]
    rfl
  · intro r p hr hlt hp hps
    have hu : getCurrentUser w = .ok r.body := by
      unfold getCurrentUser doRequest
      simp only [hr]
      rw [if_neg (by omega)]
    have hf : forkExists w = .ok false := by
      unfold forkExists
      rw [hp]
      simp [hps]
    constructor
    · intro e he
      have hcf : createFork w = .error e := by
        unfold createFork
        simp only [he]
      rw [EnsureFork_empty]
      simp only [hu, hf, hcf]
      rfl
    · intro c hc h202 h200
      have hcf : createFork w = .error ("failed to create fork: " ++ c.body) := by
        unfold createFork
        simp only [hc]
        rw [if_pos ⟨h202, h200⟩]
      rw [EnsureFork_empty]
      simp only [hu, hf, hcf]
      rfl

/-- Witness for C5 (amended): scenario D (probe 404, fork creation 202)
returns the resolved identity, and an explicit owner short-circuits. -/
theorem C5_witness :
    EnsureFork ghScenarioD "" =
      (.ok "octo",
       [.ghGetUser, .ghProbeFork "octo", .ghCreateFork, .sleepSeconds 5]) ∧
    EnsureFork ghScenarioD "explicit-owner" = (.ok "explicit-owner", []) := by
  constructor
  · exact ((C5_amended_ensure_fork ghScenarioD "").2.1 { status := 200, body := "octo" } rfl
      (by norm_num)).2 { status := 404, body := "" } { status := 202, body := "" } rfl
      (by norm_num) rfl (Or.inl rfl)
  · exact (C5_amended_ensure_fork ghScenarioD "explicit-owner").1 (by decide)

/-! ### Claim C10 -/

/-- Membership of the two short-description errors in the full validation
result reduces to membership in the short-description chunk alone (every
other chunk carries different messages). -/
theorem validate_shortDesc_mem (cfg : Config) (p : String × String)
    (hp : p = shortDescRequiredErr ∨ p = shortDescTooLongErr) :
    (p ∈ WinGetPlugin.Validate cfg ↔
      p ∈ (if cfg.Metadata.ShortDescription = "" then [shortDescRequiredErr]
           else if cfg.Metadata.ShortDescription.utf8ByteSize > 256 then [shortDescTooLongErr]
           else ([] : List (String × String)))) := by
  unfold WinGetPlugin.Validate
  simp only [List.mem_append]
  constructor
  · rintro (((((((h | h) | h) | h) | h) | h) | h) | h)
    · rw [mem_if_singleton] at h
      rcases hp with h' | h' <;> rw [h'] at h <;> exact absurd h.2 (by decide)
    · rw [mem_if_singleton] at h
      rcases hp with h' | h' <;> rw [h'] at h <;> exact absurd h.2 (by decide)
    · rw [mem_if_singleton] at h
      rcases hp with h' | h' <;> rw [h'] at h <;> exact absurd h.2 (by decide)
    · rcases installerErrorsAux_snd cfg.Installers 0 p h with h2 | h2 <;>
        rcases hp with h' | h' <;> rw [h'] at h2 <;> exact absurd h2 (by decide)
    · rw [mem_if_singleton] at h
      rcases hp with h' | h' <;> rw [h'] at h <;> exact absurd h.2 (by decide)
    · rw [mem_if_singleton] at h
      rcases hp with h' | h' <;> rw [h'] at h <;> exact absurd h.2 (by decide)
    · exact h
    · rw [mem_if_singleton] at h
      rcases hp with h' | h' <;> rw [h'] at h <;> exact absurd h.2 (by decide)
  · intro h
    exact Or.inl (Or.inr h)

set_option maxRecDepth 8192 in
/-- Counterexample to claim C10 as stated: a short description of 129
two-byte characters has character length 129 (within 1..256), yet the
validator adds the over-limit short-description error, because the source
measures Go `len` — UTF-8 bytes (here 258) — not characters. -/
theorem C10_counterexample :
    descTwoByte.length = 129 ∧
    (1 ≤ descTwoByte.length ∧ descTwoByte.length ≤ 256) ∧
    cfgTwoByteDesc.Metadata.ShortDescription = descTwoByte ∧
    shortDescTooLongErr ∈ WinGetPlugin.Validate cfgTwoByteDesc := by
  refine ⟨by decide, ⟨by decide, by decide⟩, rfl, by decide⟩

/-- Claim C10 (amended): `Validate` reports the `required` error on
`metadata.short_description` exactly when the short description is empty,
and the over-limit error exactly when it is non-empty and longer than 256
UTF-8 bytes (Go's `len`); for every short description of 1 through 256
bytes, no short-description error is added. -/
theorem C10_amended_short_description (cfg : Config) :
    (shortDescRequiredErr ∈ WinGetPlugin.Validate cfg ↔
      cfg.Metadata.ShortDescription = "") ∧
    (shortDescTooLongErr ∈ WinGetPlugin.Validate cfg ↔
      (cfg.Metadata.ShortDescription ≠ "" ∧
        cfg.Metadata.ShortDescription.utf8ByteSize > 256)) := by
  constructor
  · rw [validate_shortDesc_mem cfg _ (Or.inl rfl)]
    by_cases hd : cfg.Metadata.ShortDescription = ""
    · simp [hd]
    · rw [if_neg hd]
      constructor
      · intro hm
        by_cases hs : cfg.Metadata.ShortDescription.utf8ByteSize > 256
        · rw [if_pos hs] at hm
          simp only [List.mem_singleton] at hm
          exact absurd hm (by decide)
        · rw [if_neg hs] at hm
          cases hm
      · intro hm
        exact absurd hm hd
  · rw [validate_shortDesc_mem cfg _ (Or.inr rfl)]
    by_cases hd : cfg.Metadata.ShortDescription = ""
    · rw [if_pos hd]
      simp only [List.mem_singleton]
      constructor
      · intro hm
        exact absurd hm (by decide)
      · intro hm
        exact absurd hd hm.1
    · rw [if_neg hd]
      by_cases hs : cfg.Metadata.ShortDescription.utf8ByteSize > 256
      · rw [if_pos hs]
        simp [hd, hs]
      · rw [if_neg hs]
        simp [hd, hs]

set_option maxRecDepth 8192 in
/-- Witness for C10 (amended) at the two-byte-character configuration. -/
theorem C10_witness :
    shortDescTooLongErr ∈ WinGetPlugin.Validate cfgTwoByteDesc :=
  (C10_amended_short_description cfgTwoByteDesc).2.mpr ⟨by decide, by decide⟩
